import Mathlib

/-!
Verification development for the `ai-codereviewer` GitHub Action
(sources: `src/diff.ts` and `src/main.ts`).

The development shallowly embeds the data model of the parsed unified diff
(the `parse-diff` `File`/`Chunk`/change records), the incremental diff
engine (`hasChunk`, `filterUpdatedChunks`), the exclusion filter
(`filterExcludedFiles` over `minimatch` glob patterns), both `getDiff`
pipelines (the `diff.ts` module and the inline one in `main.ts`), the
orchestration of `main()` in `main.ts` with its collaborators represented
as explicit outcome environments, and the snapshot artifact round trip
(write / upload / extract / read of the persisted diff file).
-/

namespace AICodeReviewer

/-- One change record of a parsed diff hunk, mirroring the `parse-diff`
change objects: an added line (post-image line number `ln`), a removed line
(pre-image line number `ln`), or a context line (`ln1` pre-image, `ln2`
post-image).  `content` is the literal line text (including the leading
`+`/`-`/space marker, as `parse-diff` stores it). -/
inductive LineChange where
  | add (ln : Nat) (content : String)
  | del (ln : Nat) (content : String)
  | normal (ln1 ln2 : Nat) (content : String)
deriving DecidableEq, Repr

/-- A hunk of a parsed diff, mirroring `parse-diff`'s `Chunk`: the textual
`@@ ... @@` header line (`content`), the ordered change list, and the four
range numbers. -/
structure Chunk where
  content : String
  changes : List LineChange
  oldStart : Nat
  oldLines : Nat
  newStart : Nat
  newLines : Nat
deriving DecidableEq, Repr

/-- A per-file record of a parsed diff, mirroring `parse-diff`'s `File`:
the source and target paths (absent when the diff text carried none) and
the ordered hunks.  `fromFile` embeds the `from` field. -/
structure File where
  fromFile : Option String
  «to» : Option String
  chunks : List Chunk
deriving DecidableEq, Repr

/-- Model of the source language's `split` on a one-character separator
(`"".split(sep)` yields `[""]`), written by structural recursion over the
character list so that concrete instances reduce inside the kernel. -/
def splitCharAux (sep : Char) : List Char → List Char → List String
  | [], acc => [String.mk acc.reverse]
  | c :: cs, acc =>
    if c = sep then String.mk acc.reverse :: splitCharAux sep cs []
    else splitCharAux sep cs (c :: acc)

/-- Split a string on a one-character separator. -/
def splitChar (sep : Char) (s : String) : List String :=
  splitCharAux sep s.data []

/-- Whitespace for the purposes of `trim` (the inputs trimmed by the
source are glob patterns, where only these occur). -/
def isSpaceChar (c : Char) : Bool :=
  c = ' ' || c = '\t' || c = '\n' || c = '\r'

/-- Model of the source language's `trim`. -/
def trimChars (s : String) : String :=
  String.mk (((s.data.dropWhile isSpaceChar).reverse.dropWhile isSpaceChar).reverse)

/-- Structural model of `startsWith`. -/
def strStartsWith (s pre : String) : Bool :=
  pre.data.isPrefixOf s.data

/-- Structural model of dropping the first `n` characters. -/
def strDrop (s : String) (n : Nat) : String :=
  String.mk (s.data.drop n)

/-- The numeric value of a decimal digit character, if any. -/
def charDigit (c : Char) : Option Nat :=
  if c.toNat ≥ 48 && c.toNat ≤ 57 then some (c.toNat - 48) else none

/-- Accumulate the decimal value of a digit string. -/
def strToNatAux : List Char → Nat → Option Nat
  | [], acc => some acc
  | c :: cs, acc =>
    match charDigit c with
    | some d => strToNatAux cs (acc * 10 + d)
    | none => none

/-- Structural model of decimal parsing of a natural number. -/
def strToNat (s : String) : Option Nat :=
  match s.data with
  | [] => none
  | cs => strToNatAux cs 0

/-- From `diff.ts` line 99: `hasChunk(diffFiles, chunk)` — scans every file and
every hunk of `diffFiles` for a hunk whose `changes` serialize equal to
`chunk.changes`.  The `JSON.stringify` comparison of the source is
structural equality of the change lists (both sides come from the same
parser, so key order is fixed). -/
def hasChunk (diffFiles : List File) (chunk : Chunk) : Bool :=
  diffFiles.any fun diffFile =>
    diffFile.chunks.any fun fileChunk => fileChunk.changes == chunk.changes

/-- From `diff.ts` line 68: `filterUpdatedChunks(currentFilesDiff,
previousFilesDiff)` — for each current file, keep only the hunks not found
(by `hasChunk`) anywhere in the previous diff, then drop the file when no
hunk remains.  The source mutates `currentFile.chunks` inside a `filter`
callback; the pure rendering is a `filterMap`. -/
def filterUpdatedChunks (currentFilesDiff previousFilesDiff : List File) :
    List File :=
  currentFilesDiff.filterMap fun currentFile =>
    let chunks := currentFile.chunks.filter fun currentChunk =>
      !(hasChunk previousFilesDiff currentChunk)
    if chunks.length > 0 then some { currentFile with chunks := chunks }
    else none

/-- Modelled from the spec (§4.2) and the `minimatch` dependency, whose
source is not part of `src/`: glob matching of one path segment against
one pattern segment, with `*` matching any character run within the
segment and `?` matching one character. -/
def globSegMatch : List Char → List Char → Bool
  | [], [] => true
  | '*' :: ps, [] => globSegMatch ps []
  | '*' :: ps, c :: cs => globSegMatch ps (c :: cs) || globSegMatch ('*' :: ps) cs
  | '?' :: _ :: _, [] => false
  | '?' :: ps, _ :: cs => globSegMatch ps cs
  | p :: ps, c :: cs => p == c && globSegMatch ps cs
  | _, _ => false
termination_by pat s => (s.length, pat.length)

/-- Modelled from the spec (§4.2) and the `minimatch` dependency: matching
of a `/`-split pattern against a `/`-split path, where a `**` segment
matches any number (possibly zero) of path segments. -/
def globMatch : List (List Char) → List (List Char) → Bool
  | [], [] => true
  | ['*', '*'] :: ps, [] => globMatch ps []
  | ['*', '*'] :: ps, s :: ss => globMatch ps (s :: ss) || globMatch (['*', '*'] :: ps) ss
  | p :: ps, s :: ss => globSegMatch p s && globMatch ps ss
  | _, _ => false
termination_by pat segs => (segs.length, pat.length)

/-- Modelled from the spec (§4.2) and the `minimatch` dependency (not part
of `src/`): `minimatch(p, pattern)`.  The empty pattern is special-cased
exactly as in the library (its source reads `// "" only matches ""`;
`if (pattern.trim() === '') return p === ''`); a non-empty pattern is
matched as a `/`-separated glob.  The model covers `*`, `?` and `**`;
character classes and brace expansion are not exercised by any theorem
below. -/
def minimatch (path pattern : String) : Bool :=
  if trimChars pattern = "" then path == ""
  else
    globMatch ((splitChar '/' pattern).map String.data)
      ((splitChar '/' path).map String.data)

/-- From `diff.ts` line 86 (and the identical inline block at `main.ts` lines
394–403): split the raw `exclude` input on commas and trim each piece.
Note that splitting the empty default input yields `[""]`, a single empty
pattern, exactly as `"".split(",")` does in the source language. -/
def excludePatternsOf (excludeInput : String) : List String :=
  (splitChar ',' excludeInput).map fun s => trimChars s

/-- From `diff.ts` line 92: keep a file unless its target path (`file.to ?? ""`)
matches at least one exclusion pattern. -/
def filterExcludedFiles (excludeInput : String) (files : List File) :
    List File :=
  files.filter fun file =>
    !((excludePatternsOf excludeInput).any fun pattern =>
      minimatch (file.«to».getD "") pattern)

/-- Modelled from the spec (§4.1): helper of the Diff Parser (the
`parse-diff` dependency is not part of `src/`) — drop the `a/`/`b/` path
markers of a `---`/`+++` header. -/
def stripPathMarker (s : String) : String :=
  if strStartsWith s "a/" then strDrop s 2
  else if strStartsWith s "b/" then strDrop s 2
  else s

/-- Modelled from the spec (§4.1): parse one `start[,count]` range of a
hunk header; a missing count defaults to 1. -/
def parseRange (s : String) : Option (Nat × Nat) :=
  match splitChar ',' s with
  | [a] => (strToNat a).map fun n => (n, 1)
  | [a, b] =>
    match strToNat a, strToNat b with
    | some n, some m => some (n, m)
    | _, _ => none
  | _ => none

/-- Modelled from the spec (§4.1): recognize a `@@ -a,b +c,d @@` hunk
header line, returning the four range numbers. -/
def parseChunkHeader (line : String) : Option (Nat × Nat × Nat × Nat) :=
  match splitChar ' ' line with
  | "@@" :: oldPart :: newPart :: _ =>
    if strStartsWith oldPart "-" && strStartsWith newPart "+" then
      match parseRange (strDrop oldPart 1), parseRange (strDrop newPart 1) with
      | some (os, ol), some (ns, nl) => some (os, ol, ns, nl)
      | _, _ => none
    else none
  | _ => none

/-- State of the line-by-line diff parse: finished files, the file and
hunk under construction, and the two running line counters. -/
structure ParseState where
  done : List File
  curFile : Option File
  curChunk : Option Chunk
  delLn : Nat
  addLn : Nat

/-- Close the hunk under construction, appending it to the current file
(a hunk seen before any file header is dropped, best effort). -/
def flushChunk (st : ParseState) : ParseState :=
  match st.curChunk, st.curFile with
  | some ch, some f =>
    { st with curFile := some { f with chunks := f.chunks ++ [ch] },
              curChunk := none }
  | some _, none => { st with curChunk := none }
  | none, _ => st

/-- Close the file under construction, appending it to the finished list. -/
def flushFile (st : ParseState) : ParseState :=
  let st' := flushChunk st
  match st'.curFile with
  | some f => { st' with done := st'.done ++ [f], curFile := none }
  | none => st'

/-- Modelled from the spec (§4.1): consume one line of unified-diff text.
`---`/`+++` headers open a file record (paths kept verbatim up to the
`a/`/`b/` markers, so the `/dev/null` deletion sentinel survives); a hunk
header opens a hunk; inside a hunk, `+`, `-` and space lines append change
records carrying the running post- or pre-image line numbers and the literal
line text; anything else is ignored or closes the hunk, never an error. -/
def parseLine (st : ParseState) (line : String) : ParseState :=
  if strStartsWith line "--- " then
    let st' := flushFile st
    { st' with curFile := some ⟨some (stripPathMarker (strDrop line 4)), none, []⟩ }
  else if strStartsWith line "+++ " then
    match st.curFile with
    | some f =>
      { st with curFile := some { f with «to» := some (stripPathMarker (strDrop line 4)) } }
    | none => { st with curFile := some ⟨none, some (stripPathMarker (strDrop line 4)), []⟩ }
  else
    match parseChunkHeader line with
    | some (os, ol, ns, nl) =>
      let st' := flushChunk st
      let st'' :=
        if st'.curFile.isNone then { st' with curFile := some ⟨none, none, []⟩ }
        else st'
      { st'' with curChunk := some ⟨line, [], os, ol, ns, nl⟩, delLn := os, addLn := ns }
    | none =>
      match st.curChunk with
      | none => st
      | some ch =>
        if strStartsWith line "+" then
          { st with curChunk := some { ch with changes := ch.changes ++ [.add st.addLn line] },
                    addLn := st.addLn + 1 }
        else if strStartsWith line "-" then
          { st with curChunk := some { ch with changes := ch.changes ++ [.del st.delLn line] },
                    delLn := st.delLn + 1 }
        else if strStartsWith line " " then
          { st with curChunk := some { ch with changes := ch.changes ++ [.normal st.delLn st.addLn line] },
                    delLn := st.delLn + 1, addLn := st.addLn + 1 }
        else flushChunk st

/-- Modelled from the spec (§4.1): the Diff Parser — `parseDiff` of the
`parse-diff` dependency, which is not part of `src/`.  Empty input parses
to the empty ChangeSet; otherwise the lines are consumed best-effort and
whatever complete file/hunk records were built are returned. -/
def parseDiff (input : String) : List File :=
  if input = "" then []
  else (flushFile ((splitChar '\n' input).foldl parseLine ⟨[], none, none, 0, 0⟩)).done

namespace DiffTs

/-- From `diff.ts` line 13: the name of the persisted snapshot file. -/
def pullRequestDiffFileName : String := "pull_request.diff"

/-- From `diff.ts` line 11: where the previous artifact is extracted. -/
def downloadPath : String := "./previous"

/-- From `diff.ts` line 55: the path `fetchPreviousDiff` reads the extracted
snapshot from. -/
def previousReadPath : String := downloadPath ++ "/" ++ pullRequestDiffFileName

/-- From `diff.ts` line 81: `processDiff` — parse the raw diff text, then apply
the exclusion filter. -/
def processDiff (excludeInput diff : String) : List File :=
  filterExcludedFiles excludeInput (parseDiff diff)

/-- Outcome of the previous-snapshot retrieval chain of `diff.ts`
(`lastUploadedDiffArtifactId`, `downloadAndExtractArtifact`,
`readFileSync`): no successful run, no matching artifact, a thrown
transport/read error, or the fetched snapshot text. -/
inductive PrevFetch where
  | noRun
  | noArtifact
  | fetchError
  | fetched (text : String)

/-- From `diff.ts` line 45: `fetchPreviousDiff` — absence at either lookup
stage returns `parseDiff("")`; a fetched snapshot is parsed and
exclusion-filtered via `processDiff`.  A thrown transport or read error is
not caught anywhere in `diff.ts` and propagates to the caller. -/
def fetchPreviousDiff (excludeInput : String) :
    PrevFetch → Except Unit (List File)
  | .noRun => .ok (parseDiff "")
  | .noArtifact => .ok (parseDiff "")
  | .fetchError => .error ()
  | .fetched text => .ok (processDiff excludeInput text)

/-- From `diff.ts` line 21: `getDiff` — fetch and process both diffs, then run
the incremental engine.  The guard `if (!previousDiffFiles) return
currentDiffFiles` tests an array value, which is never falsy, so the
comparison always runs. -/
def getDiff (excludeInput currentText : String) (prev : PrevFetch) :
    Except Unit (List File) := do
  let currentDiffFiles := processDiff excludeInput currentText
  let previousDiffFiles ← fetchPreviousDiff excludeInput prev
  pure (filterUpdatedChunks currentDiffFiles previousDiffFiles)

end DiffTs

namespace MainTs

/-- From `main.ts` line 28: the pull-request metadata. -/
structure PRDetails where
  owner : String
  repo : String
  pull_number : Nat
  title : String
  description : String

/-- One entry of a parsed reviewer response (`main.ts` line 230): the
reviewer returns the line number as a string. -/
structure AiReview where
  lineNumber : String
  reviewComment : String

/-- From `main.ts` line 36: a line-anchored review comment. -/
structure ReviewComment where
  body : String
  path : String
  line : Int
deriving DecidableEq, Repr

/-- Model of the source language's number conversion applied to the
reviewer's `lineNumber` string in `createComment` (integer-valued inputs;
anything else defaults to 0, which no theorem below relies on). -/
def jsNumber (s : String) : Int :=
  match s.data with
  | '-' :: cs => ((strToNatAux cs 0).map fun n => -(n : Int)).getD 0
  | _ => ((strToNat s).map fun n => (n : Int)).getD 0

/-- Outcomes of the external collaborator calls made by `main.ts`, one
field per call site; `Except.error` marks a thrown exception.  The two
calls made once per reviewed hunk (`getExistingComments` inside
`existingComments`, and the reasoning service inside `getAIResponse`) are
indexed by the number of hunks processed before them.  `getAIResponse`
catches its own failures and returns null, so its outcome is an `Option`,
never a thrown error. -/
structure MainEnv where
  prDetails : Except Unit PRDetails
  runId : Except Unit (Option Nat)
  artifactId : Except Unit (Option Nat)
  download : Except Unit Unit
  readPrevious : Except Unit String
  currentDiffText : Except Unit String
  existing : Nat → Except Unit (List ReviewComment)
  ai : Nat → Option (List AiReview)
  createReview : Except Unit Unit
  upload : Except Unit Unit

/-- From `main.ts` lines 116–154: the body of the `try` block of `getDiff`.
Resolve the last successful run, then the artifact (absence at either
stage leaves `previousDiff` as the empty string), download, extract and
read the previous snapshot, fetch the current diff text, bypass the
comparison when `previousDiff` is falsy (the empty string), and otherwise
run the inline dedup loop, which is exactly `filterUpdatedChunks`. -/
def getDiffE (env : MainEnv) : Except Unit (List File) := do
  let runId ← env.runId
  let previousDiff ←
    match runId with
    | none => pure ""
    | some _ => do
      let artifactIdOpt ← env.artifactId
      match artifactIdOpt with
      | none => pure ""
      | some _ => do
        let _ ← env.download
        env.readPrevious
  let currentDiff ← env.currentDiffText
  if previousDiff = "" then
    pure (parseDiff currentDiff)
  else
    pure (filterUpdatedChunks (parseDiff currentDiff) (parseDiff previousDiff))

/-- From `main.ts` lines 108–160: `getDiff` with its `catch` (lines 155–159),
which normalizes every thrown error — including a failure of the current
pull-request diff fetch itself — to `parseDiff('')`, the empty
ChangeSet. -/
def getDiff (env : MainEnv) : List File :=
  match getDiffE env with
  | .ok files => files
  | .error _ => parseDiff ""

/-- From `main.ts` line 269: `createComment` — one comment per reviewer entry,
or none at all when the file has no target path. -/
def createComment (file : File) (_chunk : Chunk) (aiResponses : List AiReview) :
    List ReviewComment :=
  aiResponses.flatMap fun aiResponse =>
    match file.«to» with
    | none => []
    | some p => [⟨aiResponse.reviewComment, p, jsNumber aiResponse.lineNumber⟩]

/-- From `main.ts` lines 312–322, the inner loop of `analyzeCode` over the
hunks of one file: fetch the existing comments for the hunk (a thrown
error propagates), consult the reviewer (`none` models both a caught
failure and a null response), and collect the created comments.  `i`
counts the hunks processed so far across all files. -/
def analyzeChunks (env : MainEnv) (file : File) :
    List Chunk → Nat → Except Unit (Nat × List ReviewComment)
  | [], i => .ok (i, [])
  | chunk :: rest, i => do
    let _ ← env.existing i
    let newComments :=
      match env.ai i with
      | none => []
      | some aiResponse => createComment file chunk aiResponse
    let (i', comments) ← analyzeChunks env file rest (i + 1)
    .ok (i', newComments ++ comments)

/-- From `main.ts` lines 310–323, the outer loop of `analyzeCode`: files whose
target path is the `/dev/null` deletion sentinel are skipped. -/
def analyzeFiles (env : MainEnv) :
    List File → Nat → Except Unit (Nat × List ReviewComment)
  | [], i => .ok (i, [])
  | file :: rest, i =>
    if file.«to» = some "/dev/null" then analyzeFiles env rest i
    else do
      let (i', cs) ← analyzeChunks env file file.chunks i
      let (i'', cs') ← analyzeFiles env rest i'
      .ok (i'', cs ++ cs')

/-- From `main.ts` line 304: `analyzeCode`. -/
def analyzeCode (env : MainEnv) (parsedDiff : List File) :
    Except Unit (List ReviewComment) :=
  (analyzeFiles env parsedDiff 0).map Prod.snd

/-- Observable outcome of one invocation of `main.ts`: how many times
`uploadDiff` was attempted, and the process exit code (`main().catch`
exits 1 on an uncaught error; otherwise the process ends normally). -/
structure RunResult where
  uploadAttempts : Nat
  exitCode : Nat
deriving DecidableEq, Repr

/-- From `main.ts` lines 370–424: `main()` with its top-level `catch`.  Fetch
the PR details, compute the diff, and if it is empty attempt the upload
and return; otherwise apply the exclusion filter (lines 394–403), analyze
the code, post the review when there are comments, and attempt the
upload.  Any uncaught exception reaches `main().catch`, which exits 1
without attempting the upload steps that were not yet reached. -/
def mainRun (env : MainEnv) (excludeInput : String) : RunResult :=
  match env.prDetails with
  | .error _ => ⟨0, 1⟩
  | .ok _ =>
    let diffFiles := getDiff env
    if diffFiles.length = 0 then
      match env.upload with
      | .ok _ => ⟨1, 0⟩
      | .error _ => ⟨1, 1⟩
    else
      let filteredDiff := filterExcludedFiles excludeInput diffFiles
      match analyzeCode env filteredDiff with
      | .error _ => ⟨0, 1⟩
      | .ok comments =>
        match (if comments.length > 0 then env.createReview else .ok ()) with
        | .error _ => ⟨0, 1⟩
        | .ok _ =>
          match env.upload with
          | .ok _ => ⟨1, 0⟩
          | .error _ => ⟨1, 1⟩

/-- From `main.ts` line 136 and line 358: the file name the current diff text
is written to and the single entry of `uploadDiff`'s `files` list. -/
def currentDiffFileName : String := "current_diff.txt"

/-- From `main.ts` line 358: the files `uploadDiff` places in the artifact. -/
def uploadedFiles : List String := [currentDiffFileName]

/-- From `main.ts` line 114: `getDiff`'s `downloadPath`. -/
def downloadPath : String := "."

/-- From `main.ts` line 136: `writeFileSync('current_diff.txt', currentDiff)`,
over a file system modelled as an association list from path to content. -/
def writeCurrentDiff (fs : List (String × String)) (d : String) :
    List (String × String) :=
  (currentDiffFileName, d) :: fs

/-- From `main.ts` lines 353–368: `uploadDiff` — the published artifact holds
the named files with their current contents. -/
def uploadDiffArtifact (fs : List (String × String)) :
    List (String × String) :=
  uploadedFiles.filterMap fun name =>
    (fs.lookup name).map fun content => (name, content)

/-- From `main.ts` line 105: `zip.extractAllTo(path, true)` — every artifact
entry is written under `path`, overwriting. -/
def extractAllTo (artifact : List (String × String)) (path : String)
    (fs : List (String × String)) : List (String × String) :=
  (artifact.map fun e => (path ++ "/" ++ e.1, e.2)) ++ fs

/-- From `main.ts` line 126: `readFileSync(downloadPath + "/current_diff.txt")`
on the next run. -/
def readPreviousDiff (fs : List (String × String)) : Option String :=
  fs.lookup (downloadPath ++ "/" ++ currentDiffFileName)

end MainTs

/-- Characterization of `hasChunk`: it reports a hit exactly when some hunk
of some file of the scanned diff has a change list equal by value to the
candidate's. -/
theorem hasChunk_eq_true_iff (diffFiles : List File) (chunk : Chunk) :
    hasChunk diffFiles chunk = true ↔
      ∃ g ∈ diffFiles, ∃ c' ∈ g.chunks, c'.changes = chunk.changes := by
  simp [hasChunk, List.any_eq_true]

/-- Scanning an empty previous diff never reports a hit. -/
theorem hasChunk_nil (chunk : Chunk) : hasChunk [] chunk = false := rfl

/-- Against an empty previous diff the per-file hunk filter keeps every
hunk. -/
theorem filter_not_hasChunk_nil (chs : List Chunk) :
    (chs.filter fun ch => !(hasChunk [] ch)) = chs := by
  induction chs with
  | nil => rfl
  | cons c cs ih => simp [List.filter_cons, hasChunk, ih]

/-- Running the engine against an empty previous diff keeps every hunk and
therefore only drops the files that had no hunks to begin with. -/
theorem filterUpdatedChunks_nil_previous :
    ∀ current : List File,
      filterUpdatedChunks current [] = current.filter fun f => !f.chunks.isEmpty
  | [] => rfl
  | f :: fs => by
    have ih := filterUpdatedChunks_nil_previous fs
    have hstep :
        (if ((f.chunks.filter fun ch => !(hasChunk [] ch)).length > 0)
          then some { f with chunks := f.chunks.filter fun ch => !(hasChunk [] ch) }
          else none) = if !f.chunks.isEmpty then some f else none := by
      rcases f with ⟨fr, t, chs⟩
      cases chs with
      | nil => rfl
      | cons c cs => simp [filter_not_hasChunk_nil]
    show List.filterMap _ (f :: fs) = _
    rw [List.filterMap_cons, List.filter_cons]
    have hsame : filterUpdatedChunks (f :: fs) [] = List.filterMap _ (f :: fs) := rfl
    rcases f with ⟨fr, t, chs⟩
    cases chs with
    | nil =>
      simpa [filterUpdatedChunks, filter_not_hasChunk_nil] using ih
    | cons c cs =>
      simpa [filterUpdatedChunks, filter_not_hasChunk_nil] using congrArg (List.cons ⟨fr, t, c :: cs⟩) ih

/-- C1: a hunk of the current ChangeSet is discarded by the incremental
diff engine exactly when some hunk anywhere in the previous ChangeSet —
under any file, not only the same path — has a LineChange sequence equal
by value to it; the comparison reads only the `changes` field (so the hunk
header text and range numbers are irrelevant: second conjunct), and only
exact equality of the change lists triggers a discard, so a hunk whose
line texts or line numbers differ in any way from every previous hunk is
retained (third conjunct) while every surviving hunk has no exact match
(fourth conjunct). -/
theorem hunk_discarded_iff_exact_match_anywhere :
    (∀ (previous : List File) (c : Chunk),
        hasChunk previous c = true ↔
          ∃ g ∈ previous, ∃ c' ∈ g.chunks, c'.changes = c.changes)
    ∧ (∀ (previous : List File) (c c' : Chunk), c.changes = c'.changes →
        hasChunk previous c = hasChunk previous c')
    ∧ (∀ (current previous : List File) (f : File) (c : Chunk),
        f ∈ current → c ∈ f.chunks →
        (∀ g ∈ previous, ∀ c' ∈ g.chunks, c'.changes ≠ c.changes) →
        ∃ f' ∈ filterUpdatedChunks current previous, c ∈ f'.chunks)
    ∧ (∀ (current previous : List File) (f' : File) (c : Chunk),
        f' ∈ filterUpdatedChunks current previous → c ∈ f'.chunks →
        ∀ g ∈ previous, ∀ c' ∈ g.chunks, c'.changes ≠ c.changes) := by
  refine ⟨hasChunk_eq_true_iff, ?_, ?_, ?_⟩
  · intro previous c c' h
    simp [hasChunk, h]
  · intro current previous f c hf hc hnone
    have hfalse : hasChunk previous c = false := by
      cases h : hasChunk previous c with
      | false => rfl
      | true =>
        rcases (hasChunk_eq_true_iff previous c).mp h with ⟨g, hg, c', hc', heq⟩
        exact absurd heq (hnone g hg c' hc')
    refine ⟨{ f with chunks := f.chunks.filter fun ch => !(hasChunk previous ch) }, ?_, ?_⟩
    · have hkeep : c ∈ f.chunks.filter fun ch => !(hasChunk previous ch) :=
        List.mem_filter.mpr ⟨hc, by simp [hfalse]⟩
      refine List.mem_filterMap.mpr ⟨f, hf, ?_⟩
      have hlen : (f.chunks.filter fun ch => !(hasChunk previous ch)).length > 0 :=
        List.length_pos.mpr (List.ne_nil_of_mem hkeep)
      simp only [hlen, if_pos]
    · exact List.mem_filter.mpr ⟨hc, by simp [hfalse]⟩
  · intro current previous f' c hf' hc g hg c' hc' heq
    rcases List.mem_filterMap.mp hf' with ⟨f, _, hsome⟩
    dsimp only at hsome
    split at hsome
    · cases hsome
      have hkept := (List.mem_filter.mp hc).2
      have htrue : hasChunk previous c = true :=
        (hasChunk_eq_true_iff previous c).mpr ⟨g, hg, c', hc', heq⟩
      simp [htrue] at hkept
    · cases hsome

/-- Witness for C1 at concrete hunks: against a previous ChangeSet holding
one hunk `+x` under `b.py`, a current hunk under `a.py` with the same
change list but a different header has the same `hasChunk` verdict as the
original (header-insensitive, cross-file), while hunks whose only
difference is a trailing space in one line or a line number off by one are
retained by the engine. -/
theorem hunk_discarded_iff_exact_match_anywhere_witness :
    hasChunk [⟨some "b.py", some "b.py", [⟨"@@ -1 +1 @@", [.add 1 "+x"], 1, 1, 1, 1⟩]⟩]
        ⟨"@@ -9 +9 @@ other header", [.add 1 "+x"], 9, 1, 9, 1⟩
      = hasChunk [⟨some "b.py", some "b.py", [⟨"@@ -1 +1 @@", [.add 1 "+x"], 1, 1, 1, 1⟩]⟩]
        ⟨"@@ -1 +1 @@", [.add 1 "+x"], 1, 1, 1, 1⟩
    ∧ (∃ f' ∈ filterUpdatedChunks
          [⟨some "a.py", some "a.py", [⟨"@@ -1 +1 @@", [.add 1 "+x "], 1, 1, 1, 1⟩]⟩]
          [⟨some "b.py", some "b.py", [⟨"@@ -1 +1 @@", [.add 1 "+x"], 1, 1, 1, 1⟩]⟩],
        (⟨"@@ -1 +1 @@", [.add 1 "+x "], 1, 1, 1, 1⟩ : Chunk) ∈ f'.chunks)
    ∧ (∃ f' ∈ filterUpdatedChunks
          [⟨some "a.py", some "a.py", [⟨"@@ -2 +2 @@", [.add 2 "+x"], 2, 1, 2, 1⟩]⟩]
          [⟨some "b.py", some "b.py", [⟨"@@ -1 +1 @@", [.add 1 "+x"], 1, 1, 1, 1⟩]⟩],
        (⟨"@@ -2 +2 @@", [.add 2 "+x"], 2, 1, 2, 1⟩ : Chunk) ∈ f'.chunks) := by
  refine ⟨hunk_discarded_iff_exact_match_anywhere.2.1 _ _ _ rfl, ?_, ?_⟩
  · exact hunk_discarded_iff_exact_match_anywhere.2.2.1
      [⟨some "a.py", some "a.py", [⟨"@@ -1 +1 @@", [.add 1 "+x "], 1, 1, 1, 1⟩]⟩]
      [⟨some "b.py", some "b.py", [⟨"@@ -1 +1 @@", [.add 1 "+x"], 1, 1, 1, 1⟩]⟩]
      ⟨some "a.py", some "a.py", [⟨"@@ -1 +1 @@", [.add 1 "+x "], 1, 1, 1, 1⟩]⟩
      ⟨"@@ -1 +1 @@", [.add 1 "+x "], 1, 1, 1, 1⟩
      (by simp) (by simp) (by decide)
  · exact hunk_discarded_iff_exact_match_anywhere.2.2.1
      [⟨some "a.py", some "a.py", [⟨"@@ -2 +2 @@", [.add 2 "+x"], 2, 1, 2, 1⟩]⟩]
      [⟨some "b.py", some "b.py", [⟨"@@ -1 +1 @@", [.add 1 "+x"], 1, 1, 1, 1⟩]⟩]
      ⟨some "a.py", some "a.py", [⟨"@@ -2 +2 @@", [.add 2 "+x"], 2, 1, 2, 1⟩]⟩
      ⟨"@@ -2 +2 @@", [.add 2 "+x"], 2, 1, 2, 1⟩
      (by simp) (by simp) (by decide)

/-- C3: running the incremental diff engine with the previous ChangeSet
equal to the current one yields the empty ChangeSet — every hunk matches
itself and is discarded, and every FileDiff left with zero hunks is
dropped. -/
theorem filterUpdatedChunks_self_eq_nil (c : List File) :
    filterUpdatedChunks c c = [] := by
  unfold filterUpdatedChunks
  refine List.filterMap_eq_nil_iff.mpr ?_
  intro f hf
  have hfilter : (f.chunks.filter fun ch => !(hasChunk c ch)) = [] := by
    refine List.filter_eq_nil_iff.mpr ?_
    intro ch hch
    have : hasChunk c ch = true := (hasChunk_eq_true_iff c ch).mpr ⟨f, hf, ch, hch, rfl⟩
    simp [this]
  simp [hfilter]

/-- C9: every FileDiff in the output of the incremental diff engine holds
at least one hunk; a file whose hunks were all deduplicated away is
dropped entirely, never emitted empty. -/
theorem mem_filterUpdatedChunks_chunks_ne_nil
    (current previous : List File) (f : File)
    (hf : f ∈ filterUpdatedChunks current previous) : f.chunks ≠ [] := by
  rcases List.mem_filterMap.mp hf with ⟨f₀, _, hsome⟩
  dsimp only at hsome
  split at hsome
  · cases hsome
    exact List.ne_nil_of_length_pos (by assumption)
  · cases hsome

/-- Counterexample for C2: a current ChangeSet holding one FileDiff with
zero hunks.  The absent-state path of `main.ts`'s `getDiff` (no previous
run) passes it through unchanged, but the comparison path against an
explicit empty previous ChangeSet drops the chunk-less FileDiff, so the
two paths disagree and the empty-comparison path is not the identity. -/
theorem absent_vs_empty_previous_counterexample :
    MainTs.getDiff ⟨.ok ⟨"o", "r", 1, "t", "d"⟩, .ok none, .ok none, .ok (), .ok "",
        .ok "--- a/a.py\n+++ b/a.py\n", fun _ => .ok [], fun _ => none, .ok (), .ok ()⟩
      = [⟨some "a.py", some "a.py", []⟩]
    ∧ filterUpdatedChunks [⟨some "a.py", some "a.py", []⟩] [] = []
    ∧ ([⟨some "a.py", some "a.py", []⟩] : List File) ≠ [] := by
  refine ⟨by decide, rfl, by simp⟩

/-- C2 (amended): when the previous snapshot is absent (no prior run id),
`main.ts`'s `getDiff` bypasses the engine and returns the parsed current
diff unchanged; comparing against an explicit empty previous ChangeSet
instead keeps every hunk but drops chunk-less FileDiffs, so the two paths
agree exactly on current ChangeSets whose FileDiffs all hold at least one
hunk. -/
theorem absent_bypass_and_empty_previous_behavior :
    (∀ (env : MainTs.MainEnv) (d : String),
        env.runId = Except.ok none → env.currentDiffText = Except.ok d →
        MainTs.getDiff env = parseDiff d)
    ∧ (∀ current : List File,
        filterUpdatedChunks current [] = current.filter fun f => !f.chunks.isEmpty)
    ∧ (∀ current : List File, (∀ f ∈ current, f.chunks ≠ []) →
        filterUpdatedChunks current [] = current) := by
  refine ⟨?_, filterUpdatedChunks_nil_previous, ?_⟩
  · intro env d h1 h2
    obtain ⟨pd, rid, aid, dl, rp, cdt, ex, ai, cr, up⟩ := env
    cases h1
    cases h2
    rfl
  · intro current h
    rw [filterUpdatedChunks_nil_previous]
    refine List.filter_eq_self.mpr ?_
    intro f hf
    simpa [List.isEmpty_iff] using h f hf

/-- Witness for the amended C2 at concrete inputs: an absent-previous
environment returns the parsed current text, and the engine with an empty
previous ChangeSet is the identity on a ChangeSet whose single FileDiff
has one hunk. -/
theorem absent_bypass_and_empty_previous_behavior_witness :
    MainTs.getDiff ⟨.ok ⟨"o", "r", 1, "t", "d"⟩, .ok none, .ok none, .ok (), .ok "",
        .ok "x", fun _ => .ok [], fun _ => none, .ok (), .ok ()⟩ = parseDiff "x"
    ∧ filterUpdatedChunks
        [⟨some "a.py", some "a.py", [⟨"@@ -1 +1 @@", [.add 1 "+y"], 1, 1, 1, 1⟩]⟩] []
      = [⟨some "a.py", some "a.py", [⟨"@@ -1 +1 @@", [.add 1 "+y"], 1, 1, 1, 1⟩]⟩] :=
  ⟨absent_bypass_and_empty_previous_behavior.1 _ "x" rfl rfl,
   absent_bypass_and_empty_previous_behavior.2.2 _ (by simp)⟩

/-- C4: in the `diff.ts` pipeline the exclusion filter is applied — with
the same pattern input — to the current and to the previous raw diff text,
inside `processDiff`, before `filterUpdatedChunks` compares them, for
every pair of raw diff texts. -/
theorem exclusion_applied_to_both_sides_before_dedup
    (excludeInput currentText prevText : String) :
    DiffTs.getDiff excludeInput currentText (DiffTs.PrevFetch.fetched prevText)
      = Except.ok (filterUpdatedChunks
          (filterExcludedFiles excludeInput (parseDiff currentText))
          (filterExcludedFiles excludeInput (parseDiff prevText))) := rfl

/-- Concrete diff text used by the C5 evaluation. -/
def c5DiffText : String := "--- a/a.py\n+++ b/a.py\n@@ -1 +1 @@\n+print(1)\n"

/-- Concrete environment for C5: the previous-snapshot download throws
while the current pull-request diff is available and non-empty. -/
def c5Env : MainTs.MainEnv :=
  ⟨.ok ⟨"o", "r", 1, "t", "d"⟩, .ok (some 7), .ok (some 3), .error (), .ok "",
   .ok c5DiffText, fun _ => .ok [], fun _ => none, .ok (), .ok ()⟩

/-- C5: evaluation of the code at a failing input.  When the artifact
download throws, `main.ts`'s `getDiff` catches the error but returns the
EMPTY ChangeSet — the non-empty current diff is discarded instead of being
processed as on a first run — and `diff.ts`'s `fetchPreviousDiff` does not
catch the error at all, so its `getDiff` aborts. -/
theorem snapshot_retrieval_failure_discards_current_diff :
    c5Env.download = Except.error ()
    ∧ c5Env.currentDiffText = Except.ok c5DiffText
    ∧ MainTs.getDiff c5Env = []
    ∧ parseDiff c5DiffText ≠ []
    ∧ DiffTs.getDiff "" c5DiffText DiffTs.PrevFetch.fetchError = Except.error () :=
  ⟨rfl, rfl, rfl, by decide, rfl⟩

/-- Concrete environment for the C6 counterexample: a non-empty current
diff, a reviewer response with one comment, and a review-posting call that
throws. -/
def c6Env : MainTs.MainEnv :=
  ⟨.ok ⟨"o", "r", 1, "t", "d"⟩, .ok none, .ok none, .ok (), .ok "",
   .ok "--- a/a.py\n+++ b/a.py\n@@ -1 +1 @@\n+print(1)\n",
   fun _ => .ok [], fun _ => some [⟨"1", "Avoid magic numbers"⟩], .error (), .ok ()⟩

/-- Counterexample for C6: when posting the review throws, `main()` exits
through its top-level catch before ever reaching `uploadDiff`, so the
snapshot publish is attempted zero times on that control-flow exit. -/
theorem publish_skipped_on_review_post_failure_counterexample :
    c6Env.createReview = Except.error ()
    ∧ (MainTs.mainRun c6Env "").uploadAttempts = 0
    ∧ (MainTs.mainRun c6Env "").exitCode = 1 :=
  ⟨rfl, by decide, by decide⟩

/-- C6 (amended): the snapshot publish is attempted at most once per
invocation, and exactly once on the empty-ChangeSet path and on every run
whose per-hunk steps complete without an uncaught exception — in
particular per-hunk reviewer failures are caught and never skip it — but
an uncaught exception while fetching existing comments or posting the
review terminates the run before the publish attempt. -/
theorem upload_attempted_once_unless_uncaught_review_exception :
    (∀ (env : MainTs.MainEnv) (excludeInput : String),
        (MainTs.mainRun env excludeInput).uploadAttempts ≤ 1)
    ∧ (∀ (env : MainTs.MainEnv) (excludeInput : String) (pr : MainTs.PRDetails),
        env.prDetails = Except.ok pr → (MainTs.getDiff env).length = 0 →
        (MainTs.mainRun env excludeInput).uploadAttempts = 1)
    ∧ (∀ (env : MainTs.MainEnv) (excludeInput : String) (pr : MainTs.PRDetails)
        (comments : List MainTs.ReviewComment),
        env.prDetails = Except.ok pr →
        MainTs.analyzeCode env (filterExcludedFiles excludeInput (MainTs.getDiff env))
          = Except.ok comments →
        (comments.length > 0 → env.createReview = Except.ok ()) →
        (MainTs.mainRun env excludeInput).uploadAttempts = 1) := by
  refine ⟨?_, ?_, ?_⟩
  · intro env excl
    simp only [MainTs.mainRun]
    split
    · simp
    · split
      · split <;> simp
      · split
        · simp
        · split
          · simp
          · split <;> simp
  · intro env excl pr h1 h2
    simp only [MainTs.mainRun, h1]
    rw [if_pos h2]
    cases hu : env.upload <;> simp [hu]
  · intro env excl pr comments h1 h2 h3
    simp only [MainTs.mainRun, h1]
    by_cases hlen : (MainTs.getDiff env).length = 0
    · rw [if_pos hlen]
      cases hu : env.upload <;> simp [hu]
    · rw [if_neg hlen, h2]
      by_cases hc : comments.length > 0
      · simp only [hc, if_pos, h3 hc]
        cases hu : env.upload <;> simp [hu]
      · simp only [hc, if_neg]
        cases hu : env.upload <;> simp [hu]

/-- Concrete environment for the C6 witness: a non-empty current diff
whose only hunk gets a failed (caught) reviewer call, so no comments are
produced and the publish is still attempted exactly once. -/
def c6WitnessEnv : MainTs.MainEnv :=
  ⟨.ok ⟨"o", "r", 1, "t", "d"⟩, .ok none, .ok none, .ok (), .ok "",
   .ok "--- a/a.py\n+++ b/a.py\n@@ -1 +1 @@\n+print(2)\n",
   fun _ => .ok [], fun _ => none, .error (), .ok ()⟩

/-- Witness for the amended C6: on a run whose per-hunk reviewer call
fails (caught, yielding no comments), the publish is attempted exactly
once. -/
theorem upload_attempted_once_unless_uncaught_review_exception_witness :
    (MainTs.mainRun c6WitnessEnv "").uploadAttempts = 1 :=
  upload_attempted_once_unless_uncaught_review_exception.2.2 c6WitnessEnv ""
    ⟨"o", "r", 1, "t", "d"⟩ [] rfl rfl (by simp)

/-- Concrete environment for C7: no previous run, and the fetch of the
current pull-request diff itself throws. -/
def c7Env : MainTs.MainEnv :=
  ⟨.ok ⟨"o", "r", 1, "t", "d"⟩, .ok none, .ok none, .ok (), .ok "",
   .error (), fun _ => .ok [], fun _ => none, .ok (), .ok ()⟩

/-- C7: evaluation of the code at the failing input.  A failure to obtain
the current pull-request diff is caught inside `getDiff`'s catch-all and
normalized to the empty ChangeSet, after which the run completes normally
(exit code 0, one publish attempt) instead of surfacing the error and
terminating with a non-zero outcome. -/
theorem current_diff_fetch_failure_not_fatal :
    c7Env.currentDiffText = Except.error ()
    ∧ MainTs.getDiff c7Env = []
    ∧ (MainTs.mainRun c7Env "").exitCode = 0
    ∧ (MainTs.mainRun c7Env "").uploadAttempts = 1 :=
  ⟨rfl, rfl, by decide, by decide⟩

/-- Counterexample for C8: with the default empty `exclude` input the
pattern list is `[""]`, and the empty pattern matches exactly the empty
path, so a FileDiff whose target path is absent is removed — the filter is
not the identity. -/
theorem empty_exclude_removes_pathless_file_counterexample :
    filterExcludedFiles ""
        [⟨some "a/x", none, [⟨"@@ -1 +1 @@", [.add 1 "+x"], 1, 1, 1, 1⟩]⟩] = []
    ∧ ([⟨some "a/x", none, [⟨"@@ -1 +1 @@", [.add 1 "+x"], 1, 1, 1, 1⟩]⟩] : List File) ≠ [] :=
  ⟨by decide, by simp⟩

/-- C8 (amended): with the empty exclusion configuration the configured
pattern list is `[""]` (one empty pattern, from splitting the empty
input), and filtering is the identity on every ChangeSet whose FileDiffs
all have a non-empty target path; only a FileDiff whose target path is
absent or empty (matched as the empty string) is removed, because the
empty pattern matches exactly the empty string. -/
theorem empty_exclude_identity_on_nonempty_paths :
    ∀ files : List File, (∀ f ∈ files, f.«to».getD "" ≠ "") →
      filterExcludedFiles "" files = files := by
  intro files h
  unfold filterExcludedFiles
  refine List.filter_eq_self.mpr ?_
  intro f hf
  have hpat : excludePatternsOf "" = [""] := rfl
  have htrim : trimChars "" = "" := rfl
  have hbeq : ((f.«to».getD "") == "") = false := beq_eq_false_iff_ne.mpr (h f hf)
  rw [hpat]
  simp [minimatch, htrim, hbeq]

/-- Witness for the amended C8: a two-file ChangeSet (one ordinary path,
one `/dev/null` deletion sentinel) with the empty exclusion configuration
passes through `filterExcludedFiles` unchanged. -/
theorem empty_exclude_identity_on_nonempty_paths_witness :
    filterExcludedFiles ""
        [⟨some "a/a.py", some "a.py", [⟨"@@ -1 +1 @@", [.add 1 "+x"], 1, 1, 1, 1⟩]⟩,
         ⟨some "a/b.py", some "/dev/null", []⟩]
      = [⟨some "a/a.py", some "a.py", [⟨"@@ -1 +1 @@", [.add 1 "+x"], 1, 1, 1, 1⟩]⟩,
         ⟨some "a/b.py", some "/dev/null", []⟩] :=
  empty_exclude_identity_on_nonempty_paths _ (by decide)

/-- C10: round trip of the persisted snapshot through the `main.ts` store
model — writing the current diff text, uploading the named files into the
artifact, extracting that artifact under the download path of the next
run, and reading the expected file back, returns exactly the text that
was written: the write, upload and read paths name the same file. -/
theorem snapshot_name_roundtrip (d : String) (fs₁ fs₂ : List (String × String)) :
    MainTs.readPreviousDiff
      (MainTs.extractAllTo
        (MainTs.uploadDiffArtifact (MainTs.writeCurrentDiff fs₁ d))
        MainTs.downloadPath fs₂) = some d := by
  simp [MainTs.readPreviousDiff, MainTs.extractAllTo, MainTs.uploadDiffArtifact,
    MainTs.writeCurrentDiff, MainTs.uploadedFiles, MainTs.currentDiffFileName,
    MainTs.downloadPath, List.lookup]

/-- Witness for C9: a concrete file with one hunk survives the engine
against an empty previous ChangeSet, and its hunk list is non-empty. -/
theorem mem_filterUpdatedChunks_chunks_ne_nil_witness :
    (⟨some "a.py", some "a.py", [⟨"@@ -1 +1 @@", [.add 1 "+x"], 1, 1, 1, 1⟩]⟩ : File) ∈
        filterUpdatedChunks
          [⟨some "a.py", some "a.py", [⟨"@@ -1 +1 @@", [.add 1 "+x"], 1, 1, 1, 1⟩]⟩] []
    ∧ (⟨some "a.py", some "a.py", [⟨"@@ -1 +1 @@", [.add 1 "+x"], 1, 1, 1, 1⟩]⟩ : File).chunks ≠ [] :=
  ⟨by simp [filterUpdatedChunks, hasChunk],
   mem_filterUpdatedChunks_chunks_ne_nil
     [⟨some "a.py", some "a.py", [⟨"@@ -1 +1 @@", [.add 1 "+x"], 1, 1, 1, 1⟩]⟩] []
     ⟨some "a.py", some "a.py", [⟨"@@ -1 +1 @@", [.add 1 "+x"], 1, 1, 1, 1⟩]⟩
     (by simp [filterUpdatedChunks, hasChunk])⟩

end AICodeReviewer
